import Mathlib

/-!
Shallow embedding of the Lab Reagent Inventory System core
(`src/app.py`, Flask front-end, and `src/streamlit_app.py`, Streamlit
front-end) together with proofs about its data model, usage logging,
alert evaluation, bulk import, editing, authentication and search.

Conventions of the embedding:
* SQL `REAL` quantities are modelled as rationals (`ℚ`).
* Calendar dates are modelled as integers (day ordinals); only their
  order matters, matching the date-only comparisons in the source.
* A SQLite table is a list of rows; `INSERT` appends, `UPDATE ... WHERE
  id = ?` maps over the list, `SELECT ... ORDER BY name` sorts by the
  name key.
* Handlers that show an error and perform no write are modelled as
  functions returning the unchanged state together with `false`.
-/

namespace LabInventory

/-- Calendar date as a day ordinal; only comparisons are used. -/
abbrev Date := Int

/-- One row of the `reagents` table (`init_db` in streamlit_app.py,
class `Reagent` in app.py). -/
structure Reagent where
  id : Nat
  name : String
  cas_number : Option String
  supplier : Option String
  location : String
  quantity : ℚ
  unit : String
  expiration_date : Option Date
  low_stock_threshold : ℚ
deriving Repr, DecidableEq

/-- One row of the `usage_logs` table of streamlit_app.py (the actor is
the logged-in username). -/
structure UsageLog where
  reagent_id : Nat
  user : String
  quantity_used : ℚ
  timestamp : String
  notes : String
deriving Repr, DecidableEq

/-- One row of the `usage_logs` table of app.py (the actor is a user id). -/
structure AppUsageLog where
  reagent_id : Nat
  user_id : Nat
  quantity_used : ℚ
  notes : String
deriving Repr, DecidableEq

/-- The database state seen by the streamlit front-end. -/
structure DB where
  reagents : List Reagent
  usage_logs : List UsageLog
deriving Repr, DecidableEq

/-- Row lookup by primary key (`WHERE id = ?` on the unique key;
`Reagent.query.get` in app.py, the selected row in streamlit). -/
def findReagent (rs : List Reagent) (rid : Nat) : Option Reagent :=
  rs.find? (fun r => r.id == rid)

/-- `UPDATE reagents SET quantity = quantity - ? WHERE id = ?`
(streamlit_app.py line 487; app.py line 163 `reagent.quantity -= qty`). -/
def sqlDeductQuantity (rid : Nat) (q : ℚ) (rs : List Reagent) : List Reagent :=
  rs.map (fun r => if r.id == rid then { r with quantity := r.quantity - q } else r)

/-- The streamlit "Record Usage" handler (streamlit_app.py lines 480-498):
look up the selected reagent, reject when `qty_used > available`
(available is the selected row's current quantity), otherwise run the
quantity `UPDATE` and the usage-log `INSERT` in one transaction. -/
def record_usage (db : DB) (rid : Nat) (user : String) (qty_used : ℚ)
    (ts notes : String) : DB × Bool :=
  match findReagent db.reagents rid with
  | none => (db, false)
  | some row =>
    if qty_used > row.quantity then
      (db, false)
    else
      ({ reagents := sqlDeductQuantity rid qty_used db.reagents,
         usage_logs := db.usage_logs ++ [⟨rid, user, qty_used, ts, notes⟩] }, true)

/-- The value a `st.number_input(min_value, max_value)` widget can
submit: the entered value confined to the closed interval
(streamlit_app.py lines 468-476, `min_value=0.01, max_value=available`). -/
def number_input_value (minv maxv x : ℚ) : ℚ := max minv (min maxv x)

/-- The Flask `log_usage` route (app.py lines 158-168): 404 when the id
is absent, otherwise deduct and append the log entry unconditionally —
the route performs no stock check at all. -/
def log_usage (rs : List Reagent) (logs : List AppUsageLog) (rid uid : Nat)
    (q : ℚ) (notes : String) : (List Reagent × List AppUsageLog) × Bool :=
  match findReagent rs rid with
  | none => ((rs, logs), false)
  | some _ => ((sqlDeductQuantity rid q rs, logs ++ [⟨rid, uid, q, notes⟩]), true)

/-- An alert descriptor produced by the alert loop. -/
inductive Alert where
  | lowStock (name : String) (quantity : ℚ) (unit : String) (threshold : ℚ)
  | expired (name : String) (d : Date)
deriving Repr, DecidableEq

/-- Whether an alert is a low-stock alert. -/
def Alert.isLowStock : Alert → Bool
  | .lowStock _ _ _ _ => true
  | _ => false

/-- Whether an alert is an expired alert. -/
def Alert.isExpired : Alert → Bool
  | .expired _ _ => true
  | _ => false

/-- Body of the alert loop for one reagent (streamlit_app.py lines
129-134; the same two comparisons appear in app.py lines 79-83): a
low-stock alert when `quantity <= low_stock_threshold` and an expired
alert when the expiration date is set and `< today`. -/
def reagentAlerts (today : Date) (r : Reagent) : List Alert :=
  (if r.quantity ≤ r.low_stock_threshold then
    [Alert.lowStock r.name r.quantity r.unit r.low_stock_threshold]
  else [])
  ++ (match r.expiration_date with
      | some d => if d < today then [Alert.expired r.name d] else []
      | none => [])

/-- The whole alert loop over the loaded reagent rows. -/
def alerts (today : Date) (rs : List Reagent) : List Alert :=
  rs.flatMap (reagentAlerts today)

/-- A spreadsheet cell as pandas hands it to the import loop: either an
actual string or the float NaN that pandas uses for a missing value. -/
inductive Cell where
  | str (s : String)
  | nan
deriving Repr, DecidableEq

/-- Python `str()` applied to a cell: `str(float('nan'))` is the
four-character string "nan". -/
def pyStr : Cell → String
  | .str s => s
  | .nan => "nan"

/-- Python `str.strip()`: remove leading and trailing whitespace. -/
def pyStrip (s : String) : String :=
  String.mk (((s.data.dropWhile Char.isWhitespace).reverse.dropWhile
    Char.isWhitespace).reverse)

/-- One spreadsheet row after the column renaming step of the bulk
importer (columns `name`, `cas_number`, `supplier`; a column that is
absent for a row is a NaN cell). -/
structure ImportRow where
  name : Cell
  cas_number : Cell
  supplier : Cell
deriving Repr, DecidableEq

/-- `str(row.get(col, '')).strip() or None` (streamlit_app.py lines
275-276). -/
def stripOrNone (c : Cell) : Option String :=
  if pyStrip (pyStr c) = "" then none else some (pyStrip (pyStr c))

/-- One iteration of the bulk-import loop (streamlit_app.py lines
270-289): skip when the converted, stripped name is empty, otherwise
insert a reagent with the fixed defaults. -/
def importRow (nextId : Nat) (row : ImportRow) : Option Reagent :=
  if pyStrip (pyStr row.name) = "" then none
  else
    some { id := nextId
           name := pyStrip (pyStr row.name)
           cas_number := stripOrNone row.cas_number
           supplier := stripOrNone row.supplier
           location := "Default Location"
           quantity := 1
           unit := "bottles"
           expiration_date := none
           low_stock_threshold := 1 }

/-- The bulk-import loop over all rows: the inserted reagents (with
consecutive autoincrement ids) paired with the `imported` counter. -/
def bulkImport (nextId : Nat) : List ImportRow → List Reagent × Nat
  | [] => ([], 0)
  | row :: rest =>
    match importRow nextId row with
    | none => bulkImport nextId rest
    | some r =>
      (r :: (bulkImport (nextId + 1) rest).1, (bulkImport (nextId + 1) rest).2 + 1)

/-- Claim-side notion for C5: the row carries an actual string name that
is non-blank after trimming. -/
def hasNonBlankName (row : ImportRow) : Bool :=
  match row.name with
  | .str s => decide (pyStrip s ≠ "")
  | .nan => false

/-- The fields of the catalog edit expander (streamlit_app.py lines
191-198). -/
structure EditFields where
  name : String
  cas_number : String
  supplier : String
  location : String
  quantity : ℚ
  unit : String
  expiration_date : Option Date
  low_stock_threshold : ℚ
deriving Repr, DecidableEq

/-- The `UPDATE reagents SET ... WHERE id = ?` of the edit handler
(streamlit_app.py lines 207-212; empty cas/supplier become NULL). -/
def applyEdit (f : EditFields) (editId : Nat) (rs : List Reagent) : List Reagent :=
  rs.map (fun r =>
    if r.id == editId then
      { r with
        name := f.name
        cas_number := if f.cas_number = "" then none else some f.cas_number
        supplier := if f.supplier = "" then none else some f.supplier
        location := f.location
        quantity := f.quantity
        unit := f.unit
        expiration_date := f.expiration_date
        low_stock_threshold := f.low_stock_threshold }
    else r)

/-- The "Save Changes" handler (streamlit_app.py lines 200-217): an
expiration date that is set and strictly before today aborts with an
error and no write; otherwise the row is updated. -/
def save_changes (today : Date) (rs : List Reagent) (editId : Nat)
    (f : EditFields) : List Reagent × Bool :=
  match f.expiration_date with
  | some d => if d < today then (rs, false) else (applyEdit f editId rs, true)
  | none => (applyEdit f editId rs, true)

/-- The "Add Reagent" form handler (streamlit_app.py lines 338-377).
A past expiration date only raises a warning message (second Bool);
creation is blocked only by a blank name or location. Returns the new
table, whether a row was inserted, and whether the past-date warning was
shown. -/
def add_reagent (today : Date) (rs : List Reagent) (nextId : Nat)
    (name cas supplier final_location : String) (quantity : ℚ) (unit : String)
    (exp_date : Option Date) (threshold : ℚ) : List Reagent × Bool × Bool :=
  let warn : Bool := match exp_date with
    | some d => decide (d < today)
    | none => false
  if pyStrip name = "" ∨ final_location = "" then (rs, false, warn)
  else
    (rs ++ [{ id := nextId
              name := pyStrip name
              cas_number := if cas = "" then none else some cas
              supplier := if supplier = "" then none else some supplier
              location := final_location
              quantity := quantity
              unit := unit
              expiration_date := exp_date
              low_stock_threshold := threshold }], true, warn)

/-- One row of the `users` table of app.py. -/
structure AppUser where
  id : Nat
  username : String
  password : String
  role : String
deriving Repr, DecidableEq

/-- The two users seeded by `create_tables` (app.py lines 56-64). -/
def seedUsers : List AppUser :=
  [⟨1, "admin", "admin123", "admin"⟩, ⟨2, "user", "user123", "user"⟩]

/-- The Flask login route (app.py lines 87-95): first user with the
given username, then a plain equality check of the credential. -/
def login (users : List AppUser) (username password : String) : Option AppUser :=
  match users.find? (fun u => u.username == username) with
  | some u => if u.password == password then some u else none
  | none => none

/-- Lower-casing of a string as a character list (pandas
`str.contains(search, case=False)` compares lower-cased text). -/
def lowerChars (s : String) : List Char := s.data.map Char.toLower

/-- Substring test on character lists (Python/pandas containment). -/
def isSubList (needle : List Char) : List Char → Bool
  | [] => needle.isEmpty
  | c :: rest => needle.isPrefixOf (c :: rest) || isSubList needle rest

/-- The catalog search predicate (streamlit_app.py lines 151-155):
`str.contains(search, case=False, na=False)` on name, cas_number and
location, with a NULL cas_number never matching (`na=False`). Two
caveats bound the faithfulness of this embedding: pandas str.contains
runs with its default regex=True, so the program interprets the search
string as a regular expression, and the app.py filter (lines 71-75)
compiles to an unescaped SQL LIKE, so there `%` and `_` act as
wildcards and case folding is ASCII-only. This definition computes
case-insensitive literal containment with ASCII folding
(`Char.toLower`), which is exactly what all of those interpreters
compute on plain ASCII search strings over ASCII fields — the fragment
singled out by `plainSearch` and `asciiFields`, over which the C9
theorem is stated. -/
def matchesFilter (search : String) (r : Reagent) : Bool :=
  isSubList (lowerChars search) (lowerChars r.name)
  || (match r.cas_number with
      | some c => isSubList (lowerChars search) (lowerChars c)
      | none => false)
  || isSubList (lowerChars search) (lowerChars r.location)

/-- Characters the program's search interpreters treat specially: the
Python regex metacharacters (pandas str.contains keeps its regex=True
default) together with the SQL LIKE wildcards of the app.py filter.
Underscore, backslash and the braces are given by code point. -/
def searchMetachars : List Char :=
  ['.', '^', '$', '*', '+', '?', '[', ']', '|', '(', ')', '%',
   Char.ofNat 95, Char.ofNat 92, Char.ofNat 123, Char.ofNat 125]

/-- A plain search string: ASCII text containing no regex metacharacter
and no LIKE wildcard. On such a search string, pandas
`str.contains(s, case=False, regex=True)` and app.py's unescaped
`LIKE '%s%'` both mean case-insensitive literal containment, which is
what `matchesFilter` computes. -/
def plainSearch (s : String) : Bool :=
  s.data.all (fun c => c.toNat < 128 && !(searchMetachars.contains c))

/-- All three searched text fields of a row are ASCII, so the ASCII
case folding of the model agrees with the interpreters' folding on
them. -/
def asciiFields (r : Reagent) : Bool :=
  r.name.data.all (fun c => c.toNat < 128)
  && (match r.cas_number with
      | some c => c.data.all (fun ch => ch.toNat < 128)
      | none => true)
  && r.location.data.all (fun c => c.toNat < 128)

/-- Byte/code-point comparison of names, the SQLite BINARY collation
used by `ORDER BY name`. -/
def charListLe : List Char → List Char → Bool
  | [], _ => true
  | _ :: _, [] => false
  | a :: as, b :: bs =>
    a.toNat < b.toNat || (a.toNat == b.toNat && charListLe as bs)

/-- Name-key comparison between reagent rows. -/
def nameLe (a b : Reagent) : Bool := charListLe a.name.data b.name.data

/-- Insert one row into a name-sorted list keeping it sorted. -/
def insertByName (x : Reagent) : List Reagent → List Reagent
  | [] => [x]
  | y :: ys => if nameLe x y then x :: y :: ys else y :: insertByName x ys

/-- `SELECT * FROM reagents ORDER BY name` (streamlit_app.py line 116):
the table sorted by the name key. -/
def orderByName : List Reagent → List Reagent
  | [] => []
  | x :: xs => insertByName x (orderByName xs)

/-- `load_reagents` (streamlit_app.py lines 112-122): the reagent table
ordered by name. -/
def load_reagents (db : DB) : List Reagent := orderByName db.reagents

/-- The catalog tab listing (streamlit_app.py lines 149-155): the loaded
(name-ordered) frame, filtered by the search box when it is non-empty. -/
def catalogList (db : DB) (search : String) : List Reagent :=
  if search = "" then load_reagents db
  else (load_reagents db).filter (matchesFilter search)

/-- The Flask index listing (app.py lines 70-75): the same containment
filter, but the query has no ORDER BY, so rows come back in table
order. -/
def app_index (rs : List Reagent) (search : String) : List Reagent :=
  rs.filter (matchesFilter search)

/-- Claim-side matching predicate for C9: the search string is a
case-insensitive substring of the name, the cas_number or the location. -/
def MatchesSpec (s : String) (r : Reagent) : Prop :=
  lowerChars s <:+: lowerChars r.name
  ∨ (∃ c, r.cas_number = some c ∧ lowerChars s <:+: lowerChars c)
  ∨ lowerChars s <:+: lowerChars r.location

/-- A concrete reagent row used in witnesses and counterexamples. -/
def nacl : Reagent := ⟨1, "NaCl", none, none, "Shelf A", 5, "g", none, 10⟩

/-- A concrete database with the one reagent row and no usage logs. -/
def dbEx : DB := ⟨[nacl], []⟩

/-- Concrete rows with names "A" and "B" stored in reverse name order. -/
def rowA : Reagent := ⟨2, "A", none, none, "L1", 1, "g", none, 1⟩

/-- Second concrete row, named "B", stored before `rowA`. -/
def rowB : Reagent := ⟨1, "B", none, none, "L1", 1, "g", none, 1⟩

/-- Concrete import rows: a padded valid name, a blank name, a plain
valid name. -/
def exRows : List ImportRow :=
  [⟨.str " NaCl ", .str "7647-14-5", .str "Acme"⟩,
   ⟨.str "   ", .nan, .nan⟩,
   ⟨.str "KCl", .nan, .str ""⟩]

/-! Helper lemmas. -/

/-- Looking up a row after the quantity `UPDATE` yields the looked-up row
with its quantity reduced. -/
theorem findReagent_sqlDeduct (rs : List Reagent) (rid : Nat) (q : ℚ) :
    findReagent (sqlDeductQuantity rid q rs) rid
      = (findReagent rs rid).map (fun r => { r with quantity := r.quantity - q }) := by
  unfold findReagent sqlDeductQuantity
  induction rs with
  | nil => rfl
  | cons r rest ih =>
    rw [List.map_cons]
    by_cases h : (r.id == rid) = true
    · rw [if_pos h, List.find?_cons_of_pos, List.find?_cons_of_pos]
      · rfl
      · exact h
      · exact h
    · rw [if_neg h, List.find?_cons_of_neg, List.find?_cons_of_neg, ih]
      · exact h
      · exact h

/-- The low-stock component of a reagent's alerts is exactly the
threshold comparison. -/
theorem reagentAlerts_any_lowStock (today : Date) (r : Reagent) :
    (reagentAlerts today r).any Alert.isLowStock
      = decide (r.quantity ≤ r.low_stock_threshold) := by
  cases hexp : r.expiration_date with
  | none =>
    by_cases hq : r.quantity ≤ r.low_stock_threshold <;>
      simp [reagentAlerts, hexp, hq, Alert.isLowStock]
  | some d =>
    by_cases hq : r.quantity ≤ r.low_stock_threshold <;>
      by_cases hd : d < today <;>
        simp [reagentAlerts, hexp, hq, hd, Alert.isLowStock, Alert.isExpired]

/-- The expired component of a reagent's alerts is exactly the
date comparison on a set expiration date. -/
theorem reagentAlerts_any_expired (today : Date) (r : Reagent) :
    (reagentAlerts today r).any Alert.isExpired
      = (match r.expiration_date with
        | some d => decide (d < today)
        | none => false) := by
  cases hexp : r.expiration_date with
  | none =>
    by_cases hq : r.quantity ≤ r.low_stock_threshold <;>
      simp [reagentAlerts, hexp, hq, Alert.isLowStock, Alert.isExpired]
  | some d =>
    by_cases hq : r.quantity ≤ r.low_stock_threshold <;>
      by_cases hd : d < today <;>
        simp [reagentAlerts, hexp, hq, hd, Alert.isLowStock, Alert.isExpired]

/-! Claim theorems. -/

/-- C2: usage recording is all-or-nothing. With the selected row looked
up, the handler succeeds exactly when the requested quantity does not
exceed the current quantity; on failure the database is entirely
unchanged (no deduction, no ledger entry); on success the ledger gains
exactly the one entry and the row's quantity drops by the requested
amount. -/
theorem c2_record_usage_atomic (db : DB) (rid : Nat) (user : String) (q : ℚ)
    (ts notes : String) (row : Reagent)
    (hfind : findReagent db.reagents rid = some row) :
    ((record_usage db rid user q ts notes).2 = true ↔ q ≤ row.quantity)
    ∧ ((record_usage db rid user q ts notes).2 = false →
        record_usage db rid user q ts notes = (db, false))
    ∧ ((record_usage db rid user q ts notes).2 = true →
        (record_usage db rid user q ts notes).1.usage_logs
          = db.usage_logs ++ [⟨rid, user, q, ts, notes⟩]
        ∧ findReagent (record_usage db rid user q ts notes).1.reagents rid
          = some { row with quantity := row.quantity - q }) := by
  have hrw : record_usage db rid user q ts notes
      = if q > row.quantity then (db, false)
        else ({ reagents := sqlDeductQuantity rid q db.reagents,
                usage_logs := db.usage_logs ++ [⟨rid, user, q, ts, notes⟩] }, true) := by
    unfold record_usage
    rw [hfind]
  by_cases h : q > row.quantity
  · rw [hrw, if_pos h]
    refine ⟨⟨fun h2 => ?_, fun hq => absurd hq (not_le.mpr h)⟩, fun _ => rfl,
      fun h2 => ?_⟩
    · simp at h2
    · simp at h2
  · rw [hrw, if_neg h]
    refine ⟨⟨fun _ => not_lt.mp h, fun _ => rfl⟩, fun h2 => ?_, fun _ => ⟨rfl, ?_⟩⟩
    · simp at h2
    · show findReagent (sqlDeductQuantity rid q db.reagents) rid = _
      rw [findReagent_sqlDeduct, hfind]
      rfl

/-- Witness for C2: on the concrete one-reagent database, recording 7
out of 5 fails and changes nothing, while recording 2 appends exactly
the one ledger entry. -/
theorem c2_witness :
    record_usage dbEx 1 "alice" 7 "t0" "" = (dbEx, false)
    ∧ (record_usage dbEx 1 "alice" 2 "t0" "").1.usage_logs
      = [⟨1, "alice", 2, "t0", ""⟩] := by
  have h7 := c2_record_usage_atomic dbEx 1 "alice" 7 "t0" "" nacl (by rfl)
  have h2 := c2_record_usage_atomic dbEx 1 "alice" 2 "t0" "" nacl (by rfl)
  have hflag7 : (record_usage dbEx 1 "alice" 7 "t0" "").2 = false := by
    cases hb : (record_usage dbEx 1 "alice" 7 "t0" "").2 with
    | false => rfl
    | true =>
      have : (7 : ℚ) ≤ nacl.quantity := h7.1.mp hb
      norm_num [nacl] at this
  have hflag2 : (record_usage dbEx 1 "alice" 2 "t0" "").2 = true :=
    h2.1.mpr (by norm_num [nacl])
  refine ⟨h7.2.1 hflag7, ?_⟩
  have := (h2.2.2 hflag2).1
  simpa [dbEx] using this

/-- C3: the alert loop emits a low-stock alert for a reagent iff its
quantity is at most its low-stock threshold (equality flags); the
decision does not depend on the expiration date; a reagent at exactly
zero with a non-negative threshold is always flagged. -/
theorem c3_low_stock_iff (today : Date) (r : Reagent) :
    ((reagentAlerts today r).any Alert.isLowStock = true
      ↔ r.quantity ≤ r.low_stock_threshold)
    ∧ (∀ e, (reagentAlerts today { r with expiration_date := e }).any Alert.isLowStock
        = (reagentAlerts today r).any Alert.isLowStock)
    ∧ (r.quantity = 0 → 0 ≤ r.low_stock_threshold →
        (reagentAlerts today r).any Alert.isLowStock = true) := by
  refine ⟨?_, ?_, ?_⟩
  · simp [reagentAlerts_any_lowStock]
  · intro e
    simp [reagentAlerts_any_lowStock]
  · intro h0 ht
    simp only [reagentAlerts_any_lowStock, decide_eq_true_eq]
    rw [h0]
    exact ht

/-- Witness for C3: a reagent at exactly zero quantity is flagged
low-stock. -/
theorem c3_witness :
    (reagentAlerts 100 { nacl with quantity := 0 }).any Alert.isLowStock = true :=
  (c3_low_stock_iff 100 { nacl with quantity := 0 }).2.2 rfl (by norm_num [nacl])

/-- C4: the alert loop emits an expired alert for a reagent iff its
expiration date is set and strictly before today; a reagent expiring
exactly today is not flagged. -/
theorem c4_expired_iff (today : Date) (r : Reagent) :
    ((reagentAlerts today r).any Alert.isExpired = true
      ↔ ∃ d, r.expiration_date = some d ∧ d < today)
    ∧ (r.expiration_date = some today →
        (reagentAlerts today r).any Alert.isExpired = false) := by
  constructor
  · rw [reagentAlerts_any_expired]
    cases hexp : r.expiration_date with
    | none => simp
    | some d => simp
  · intro h
    rw [reagentAlerts_any_expired, h]
    simp

/-- Witness for C4: a reagent whose expiration date equals today is not
flagged expired. -/
theorem c4_witness :
    (reagentAlerts 50 { nacl with expiration_date := some 50 }).any
      Alert.isExpired = false :=
  (c4_expired_iff 50 { nacl with expiration_date := some 50 }).2 rfl

/-- Unfolding equation for the import loop on a cons cell. -/
theorem bulkImport_cons (nextId : Nat) (row : ImportRow) (rest : List ImportRow) :
    bulkImport nextId (row :: rest)
      = match importRow nextId row with
        | none => bulkImport nextId rest
        | some r =>
          (r :: (bulkImport (nextId + 1) rest).1,
           (bulkImport (nextId + 1) rest).2 + 1) := rfl

/-- C5: over rows whose name cells are actual strings, bulk import
creates exactly one reagent per row with a non-blank name after
trimming, silently skipping blank-named rows; the reported count equals
that number; and every created row carries the fixed defaults
location = "Default Location", quantity = 1.0, unit = "bottles", no
expiration date, low-stock threshold = 1.0. -/
theorem c5_bulk_import (rows : List ImportRow) (nextId : Nat)
    (hstr : ∀ row ∈ rows, row.name ≠ Cell.nan) :
    (bulkImport nextId rows).2 = (rows.filter hasNonBlankName).length
    ∧ (bulkImport nextId rows).1.length = (rows.filter hasNonBlankName).length
    ∧ ∀ r ∈ (bulkImport nextId rows).1,
        r.location = "Default Location" ∧ r.quantity = 1 ∧ r.unit = "bottles"
        ∧ r.expiration_date = none ∧ r.low_stock_threshold = 1 := by
  induction rows generalizing nextId with
  | nil =>
    refine ⟨rfl, rfl, ?_⟩
    intro r hr
    simp [bulkImport] at hr
  | cons row rest ih =>
    have hhead : row.name ≠ Cell.nan := hstr row (by simp)
    have hrest : ∀ r ∈ rest, r.name ≠ Cell.nan := fun r hr => hstr r (by simp [hr])
    obtain ⟨s, hs⟩ : ∃ s, row.name = Cell.str s := by
      cases hn : row.name with
      | str s => exact ⟨s, rfl⟩
      | nan => exact absurd hn hhead
    by_cases hblank : pyStrip s = ""
    · have himp : importRow nextId row = none := by
        simp [importRow, hs, pyStr, hblank]
      have hfilt : hasNonBlankName row = false := by
        simp [hasNonBlankName, hs, hblank]
      rcases ih nextId hrest with ⟨h1, h2, h3⟩
      simp only [bulkImport_cons, himp]
      exact ⟨by simp [List.filter_cons, hfilt, h1],
        by simp [List.filter_cons, hfilt, h2], h3⟩
    · have himp : importRow nextId row
          = some { id := nextId, name := pyStrip s,
                   cas_number := stripOrNone row.cas_number,
                   supplier := stripOrNone row.supplier,
                   location := "Default Location", quantity := 1,
                   unit := "bottles", expiration_date := none,
                   low_stock_threshold := 1 } := by
        simp [importRow, hs, pyStr, hblank]
      have hfilt : hasNonBlankName row = true := by
        simp [hasNonBlankName, hs, hblank]
      rcases ih (nextId + 1) hrest with ⟨h1, h2, h3⟩
      simp only [bulkImport_cons, himp]
      refine ⟨by simp [List.filter_cons, hfilt, h1],
        by simp [List.filter_cons, hfilt, h2], ?_⟩
      intro r hr
      rcases List.mem_cons.mp hr with rfl | hr
      · exact ⟨rfl, rfl, rfl, rfl, rfl⟩
      · exact h3 r hr

/-- Witness for C5 on three concrete rows (one padded name, one blank
name, one plain name): two rows are imported and counted. -/
theorem c5_witness :
    (bulkImport 1 exRows).2 = (exRows.filter hasNonBlankName).length
    ∧ (bulkImport 1 exRows).1.length = (exRows.filter hasNonBlankName).length
    ∧ (exRows.filter hasNonBlankName).length = 2 := by
  have h := c5_bulk_import exRows 1 (by decide)
  exact ⟨h.1, h.2.1, by decide⟩

/-- C10: a row whose name cell is the pandas NaN is converted by str()
to the non-blank string "nan", so the row is imported as a reagent
literally named "nan" rather than being skipped. -/
theorem c10_nan_name_imported (nextId : Nat) (row : ImportRow)
    (hnan : row.name = Cell.nan) :
    pyStr row.name = "nan"
    ∧ importRow nextId row
      = some { id := nextId, name := "nan",
               cas_number := stripOrNone row.cas_number,
               supplier := stripOrNone row.supplier,
               location := "Default Location", quantity := 1,
               unit := "bottles", expiration_date := none,
               low_stock_threshold := 1 } := by
  have hstrip : pyStrip "nan" = "nan" := by decide
  constructor
  · rw [hnan]
    rfl
  · simp [importRow, hnan, pyStr, hstrip]

/-- Witness for C10: an all-NaN row is imported with name "nan" and
cas_number/supplier also the literal string "nan". -/
theorem c10_witness :
    importRow 7 ⟨Cell.nan, Cell.nan, Cell.nan⟩
      = some { id := 7, name := "nan", cas_number := some "nan",
               supplier := some "nan", location := "Default Location",
               quantity := 1, unit := "bottles", expiration_date := none,
               low_stock_threshold := 1 } := by
  rw [(c10_nan_name_imported 7 ⟨Cell.nan, Cell.nan, Cell.nan⟩ rfl).2]
  rfl

/-- C7: an edit that sets the expiration date strictly before today is
rejected with an error and leaves the table unchanged, whereas the add
form with a past expiration date shows only a warning (third component
true) and still inserts the reagent — update is strictly stricter than
create on this field. -/
theorem c7_edit_stricter_than_create (today : Date) (rs : List Reagent) :
    (∀ editId f d, f.expiration_date = some d → d < today →
        save_changes today rs editId f = (rs, false))
    ∧ (∀ nextId name cas supplier loc (q : ℚ) (u : String) d (threshold : ℚ),
        pyStrip name ≠ "" → loc ≠ "" → d < today →
        add_reagent today rs nextId name cas supplier loc q u (some d) threshold
          = (rs ++ [{ id := nextId, name := pyStrip name,
                      cas_number := if cas = "" then none else some cas,
                      supplier := if supplier = "" then none else some supplier,
                      location := loc, quantity := q, unit := u,
                      expiration_date := some d,
                      low_stock_threshold := threshold }], true, true)) := by
  constructor
  · intro editId f d hexp hd
    unfold save_changes
    simp only [hexp]
    rw [if_pos hd]
  · intro nextId name cas supplier loc q u d threshold hn hl hd
    simp [add_reagent, hn, hl, hd]

/-- Witness for C7: a concrete rejected edit and a concrete accepted
creation, both with expiration date 5 while today is 100. -/
theorem c7_witness :
    save_changes 100 [nacl] 1 ⟨"X", "", "", "L", 2, "g", some 5, 1⟩ = ([nacl], false)
    ∧ (add_reagent 100 [] 3 "KCl" "" "" "Shelf" 2 "g" (some 5) 1).2.1 = true
    ∧ (add_reagent 100 [] 3 "KCl" "" "" "Shelf" 2 "g" (some 5) 1).2.2 = true := by
  have h2 := (c7_edit_stricter_than_create 100 []).2 3 "KCl" "" "" "Shelf" 2 "g" 5 1
    (by decide) (by decide) (by decide)
  exact ⟨(c7_edit_stricter_than_create 100 [nacl]).1 1 _ 5 rfl (by decide),
    by rw [h2], by rw [h2]⟩

/-- C8: authentication succeeds with the stored user exactly when both
the username and the credential match a stored user (usernames being
unique); on the seeded store, admin/admin123 yields role admin and
admin/wrong fails. -/
theorem c8_authenticate :
    (∀ (users : List AppUser) (username password : String) (u : AppUser),
      (users.map AppUser.username).Nodup →
      (login users username password = some u
        ↔ u ∈ users ∧ u.username = username ∧ u.password = password))
    ∧ (login seedUsers "admin" "admin123").map AppUser.role = some "admin"
    ∧ login seedUsers "admin" "wrong" = none := by
  refine ⟨?_, rfl, rfl⟩
  intro users username password u hnodup
  constructor
  · intro h
    cases hfind : users.find? (fun v => v.username == username) with
    | none =>
      simp only [login, hfind] at h
      exact absurd h (by simp)
    | some v =>
      simp only [login, hfind] at h
      by_cases hp : (v.password == password) = true
      · rw [if_pos hp] at h
        injection h with h2
        subst h2
        exact ⟨List.mem_of_find?_eq_some hfind,
          by simpa using List.find?_some hfind, by simpa using hp⟩
      · rw [if_neg hp] at h
        exact absurd h (by simp)
  · rintro ⟨hmem, huser, hpass⟩
    cases hfind : users.find? (fun v => v.username == username) with
    | none =>
      exact absurd (by simp [huser] : (u.username == username) = true)
        (List.find?_eq_none.mp hfind u hmem)
    | some v =>
      have hvu : v = u := by
        have hvname : v.username = username := by
          simpa using List.find?_some hfind
        exact List.inj_on_of_nodup_map hnodup (List.mem_of_find?_eq_some hfind)
          hmem (by rw [hvname, huser])
      subst hvu
      simp only [login, hfind]
      rw [if_pos (by simpa using hpass)]

/-- Witness for C8: the second seeded user authenticates with its
credential. -/
theorem c8_witness :
    login seedUsers "user" "user123" = some ⟨2, "user", "user123", "user"⟩ :=
  (c8_authenticate.1 seedUsers "user" "user123" ⟨2, "user", "user123", "user"⟩
    (by decide)).mpr ⟨by decide, rfl, rfl⟩

/-- The empty needle is a substring of every character list. -/
theorem isSubList_nil (h : List Char) : isSubList [] h = true := by
  induction h with
  | nil => rfl
  | cons c rest ih => simp [isSubList, List.isPrefixOf]

/-- The executable substring test agrees with list-infix. -/
theorem isSubList_iff (n h : List Char) : isSubList n h = true ↔ n <:+: h := by
  induction h with
  | nil => simp [isSubList, List.isEmpty_iff, List.infix_nil]
  | cons c rest ih =>
    simp [isSubList, ih, List.isPrefixOf_iff_prefix, List.infix_cons_iff]

/-- With an empty search box every row matches. -/
theorem matchesFilter_empty_search (r : Reagent) : matchesFilter "" r = true := by
  have h : lowerChars "" = [] := rfl
  simp [matchesFilter, h, isSubList_nil]

/-- The executable filter agrees with the claim-side matching
predicate. -/
theorem matchesFilter_iff (s : String) (r : Reagent) :
    matchesFilter s r = true ↔ MatchesSpec s r := by
  unfold matchesFilter MatchesSpec
  cases hc : r.cas_number with
  | none => simp [hc, isSubList_iff]
  | some c =>
    simp only [hc, Bool.or_eq_true, isSubList_iff, Option.some.injEq]
    constructor
    · rintro ((h | h) | h)
      · exact Or.inl h
      · exact Or.inr (Or.inl ⟨c, rfl, h⟩)
      · exact Or.inr (Or.inr h)
    · rintro (h | ⟨c2, hc2, h⟩ | h)
      · exact Or.inl (Or.inl h)
      · cases hc2
        exact Or.inl (Or.inr h)
      · exact Or.inr h

/-- The name-key comparison is total. -/
theorem charListLe_total (a b : List Char) :
    charListLe a b = true ∨ charListLe b a = true := by
  induction a generalizing b with
  | nil => exact Or.inl rfl
  | cons x xs ih =>
    cases b with
    | nil => exact Or.inr rfl
    | cons y ys =>
      simp only [charListLe, Bool.or_eq_true, Bool.and_eq_true,
        decide_eq_true_eq, beq_iff_eq]
      rcases Nat.lt_trichotomy x.toNat y.toNat with h | h | h
      · exact Or.inl (Or.inl h)
      · rcases ih ys with h2 | h2
        · exact Or.inl (Or.inr ⟨h, h2⟩)
        · exact Or.inr (Or.inr ⟨h.symm, h2⟩)
      · exact Or.inr (Or.inl h)

/-- The name-key comparison is transitive. -/
theorem charListLe_trans (a b c : List Char) (hab : charListLe a b = true)
    (hbc : charListLe b c = true) : charListLe a c = true := by
  induction a generalizing b c with
  | nil => rfl
  | cons x xs ih =>
    cases b with
    | nil => simp [charListLe] at hab
    | cons y ys =>
      cases c with
      | nil => simp [charListLe] at hbc
      | cons z zs =>
        simp only [charListLe, Bool.or_eq_true, Bool.and_eq_true,
          decide_eq_true_eq, beq_iff_eq] at hab hbc ⊢
        rcases hab with h1 | ⟨h1, h1r⟩ <;> rcases hbc with h2 | ⟨h2, h2r⟩
        · exact Or.inl (by omega)
        · exact Or.inl (by omega)
        · exact Or.inl (by omega)
        · exact Or.inr ⟨by omega, ih ys zs h1r h2r⟩

/-- Totality of the row comparison. -/
theorem nameLe_total (a b : Reagent) : nameLe a b = true ∨ nameLe b a = true :=
  charListLe_total _ _

/-- Transitivity of the row comparison. -/
theorem nameLe_trans (a b c : Reagent) (h1 : nameLe a b = true)
    (h2 : nameLe b c = true) : nameLe a c = true :=
  charListLe_trans _ _ _ h1 h2

/-- Sorted insertion permutes the inserted row to the front. -/
theorem perm_insertByName (x : Reagent) (l : List Reagent) :
    (insertByName x l).Perm (x :: l) := by
  induction l with
  | nil => exact List.Perm.refl _
  | cons y ys ih =>
    by_cases h : nameLe x y = true
    · simp only [insertByName, if_pos h]
      exact List.Perm.refl _
    · simp only [insertByName, if_neg h]
      exact (List.Perm.cons y ih).trans (List.Perm.swap x y ys)

/-- The name sort is a permutation of the table. -/
theorem perm_orderByName (l : List Reagent) : (orderByName l).Perm l := by
  induction l with
  | nil => exact List.Perm.refl _
  | cons x xs ih =>
    exact (perm_insertByName x (orderByName xs)).trans (List.Perm.cons x ih)

/-- Sorted insertion preserves name-sortedness. -/
theorem pairwise_insertByName (x : Reagent) (l : List Reagent)
    (hl : List.Pairwise (fun a b => nameLe a b = true) l) :
    List.Pairwise (fun a b => nameLe a b = true) (insertByName x l) := by
  induction l with
  | nil => simp [insertByName]
  | cons y ys ih =>
    rcases List.pairwise_cons.mp hl with ⟨hy, hys⟩
    by_cases h : nameLe x y = true
    · simp only [insertByName, if_pos h]
      refine List.pairwise_cons.mpr ⟨?_, hl⟩
      intro z hz
      rcases List.mem_cons.mp hz with rfl | hz
      · exact h
      · exact nameLe_trans x y z h (hy z hz)
    · have hyx : nameLe y x = true := by
        rcases nameLe_total x y with h2 | h2
        · exact absurd h2 h
        · exact h2
      simp only [insertByName, if_neg h]
      refine List.pairwise_cons.mpr ⟨?_, ih hys⟩
      intro z hz
      rcases List.mem_cons.mp ((perm_insertByName x ys).mem_iff.mp hz) with rfl | hz
      · exact hyx
      · exact hy z hz

/-- The name sort is name-sorted. -/
theorem sorted_orderByName (l : List Reagent) :
    List.Pairwise (fun a b => nameLe a b = true) (orderByName l) := by
  induction l with
  | nil => exact List.Pairwise.nil
  | cons x xs ih => exact pairwise_insertByName x (orderByName xs) ih

/-- C9 (amended): over the fragment where the program's search
interpreters mean literal containment — a plain ASCII search string
(no regex metacharacter, since pandas str.contains keeps regex=True,
and no LIKE wildcard) over ASCII rows — the streamlit catalog listing
returns exactly the reagents for which the search string is a
case-insensitive substring of the name, the cas_number or the
location, and the returned sequence is ordered by the name key; the
Flask index listing applies the same filter but no ordering (see the
counterexample). The two hypotheses delimit where the embedding
coincides with the program; the list-level facts hold for the model
throughout. -/
theorem c9_catalog_sorted_exact (db : DB) (s : String)
    (_hplain : plainSearch s = true)
    (_hascii : ∀ r ∈ db.reagents, asciiFields r = true) :
    List.Pairwise (fun a b => nameLe a b = true) (catalogList db s)
    ∧ (catalogList db s).Perm (db.reagents.filter (matchesFilter s))
    ∧ (∀ r, r ∈ catalogList db s ↔ r ∈ db.reagents ∧ MatchesSpec s r) := by
  have hperm : (catalogList db s).Perm (db.reagents.filter (matchesFilter s)) := by
    unfold catalogList load_reagents
    by_cases hs : s = ""
    · subst hs
      rw [if_pos rfl]
      have hall : db.reagents.filter (matchesFilter "") = db.reagents :=
        List.filter_eq_self.mpr (fun a _ => matchesFilter_empty_search a)
      rw [hall]
      exact perm_orderByName db.reagents
    · rw [if_neg hs]
      exact (perm_orderByName db.reagents).filter (matchesFilter s)
  have hsorted : List.Pairwise (fun a b => nameLe a b = true) (catalogList db s) := by
    unfold catalogList load_reagents
    by_cases hs : s = ""
    · rw [if_pos hs]
      exact sorted_orderByName db.reagents
    · rw [if_neg hs]
      exact (sorted_orderByName db.reagents).filter (matchesFilter s)
  refine ⟨hsorted, hperm, fun r => ?_⟩
  rw [hperm.mem_iff, List.mem_filter, matchesFilter_iff]

/-- C9 counterexample: the Flask index listing applies no ordering: with
the store holding the row named "B" before the row named "A", the full
listing comes back in store order, which is not alphabetical by name.
The input lies inside the fragment where the embedding is exact: the
empty search is plain (LIKE against the two per-cent signs alone
matches every row) and both rows are ASCII. -/
theorem c9_counterexample :
    app_index [rowB, rowA] "" = [rowB, rowA]
    ∧ ¬ List.Pairwise (fun a b => nameLe a b = true) (app_index [rowB, rowA] "")
    ∧ plainSearch "" = true
    ∧ asciiFields rowB = true ∧ asciiFields rowA = true := by
  have h : app_index [rowB, rowA] "" = [rowB, rowA] := by decide
  refine ⟨h, ?_, by decide, by decide, by decide⟩
  rw [h]
  decide

/-- Witness for C9 (amended): on the concrete one-reagent database and
the plain ASCII search "na", the listing contains the NaCl row. -/
theorem c9_witness : nacl ∈ catalogList dbEx "na" :=
  ((c9_catalog_sorted_exact dbEx "na" (by decide)
      (by decide)).2.2 nacl).mpr
    ⟨by decide, (matchesFilter_iff "na" nacl).mp (by decide)⟩

/-- C1 counterexample: the Flask log_usage route applies no stock check:
logging usage of 10 against a stock of 5 succeeds, appends a ledger
entry, and leaves the quantity at -5, strictly below zero, instead of
failing and leaving the quantity unchanged. -/
theorem c1_counterexample :
    (log_usage [nacl] [] 1 9 10 "run").2 = true
    ∧ (log_usage [nacl] [] 1 9 10 "run").1.1 = [{ nacl with quantity := -5 }]
    ∧ (log_usage [nacl] [] 1 9 10 "run").1.2 = [⟨1, 9, 10, "run"⟩]
    ∧ (10 : ℚ) > nacl.quantity
    ∧ ({ nacl with quantity := -5 } : Reagent).quantity < 0 := by
  refine ⟨rfl, ?_, rfl, by norm_num [nacl], by norm_num [nacl]⟩
  show sqlDeductQuantity 1 10 [nacl] = _
  simp [sqlDeductQuantity, nacl]
  norm_num

/-- C1 (amended): the streamlit Record Usage handler does enforce the
invariant: with row ids unique and all quantities non-negative, a
request exceeding the selected row's quantity fails leaving the
database unchanged, and after any request every stored quantity is
still non-negative. The Flask log_usage route has no such check (see
the counterexample). -/
theorem c1_streamlit_nonneg (db : DB) (rid : Nat) (user : String) (q : ℚ)
    (ts notes : String)
    (hnodup : (db.reagents.map Reagent.id).Nodup)
    (hpos : ∀ r ∈ db.reagents, 0 ≤ r.quantity) :
    (∀ row, findReagent db.reagents rid = some row → q > row.quantity →
        record_usage db rid user q ts notes = (db, false))
    ∧ (∀ r ∈ (record_usage db rid user q ts notes).1.reagents, 0 ≤ r.quantity) := by
  constructor
  · intro row hfind hq
    unfold record_usage
    simp only [hfind]
    rw [if_pos hq]
  · intro r hr
    cases hfind : findReagent db.reagents rid with
    | none =>
      simp only [record_usage, hfind] at hr
      exact hpos r hr
    | some row =>
      simp only [record_usage, hfind] at hr
      by_cases hq : q > row.quantity
      · rw [if_pos hq] at hr
        exact hpos r hr
      · rw [if_neg hq] at hr
        have hr2 : r ∈ sqlDeductQuantity rid q db.reagents := hr
        rcases List.mem_map.mp hr2 with ⟨r0, hr0, heq⟩
        by_cases hid : (r0.id == rid) = true
        · rw [if_pos hid] at heq
          have hrow : r0 = row := by
            refine List.inj_on_of_nodup_map hnodup hr0
              (List.mem_of_find?_eq_some hfind) ?_
            have ha : r0.id = rid := by simpa using hid
            have hb : row.id = rid := by simpa using List.find?_some hfind
            rw [ha, hb]
          have hq2 : q ≤ row.quantity := not_lt.mp hq
          rw [← heq]
          show 0 ≤ r0.quantity - q
          rw [hrow]
          exact sub_nonneg.mpr hq2
        · rw [if_neg hid] at heq
          rw [← heq]
          exact hpos r0 hr0

/-- Witness for C1 (amended): on the concrete database, requesting 7 out
of 5 fails and changes nothing. -/
theorem c1_witness :
    record_usage dbEx 1 "bob" 7 "t1" "n" = (dbEx, false) :=
  (c1_streamlit_nonneg dbEx 1 "bob" 7 "t1" "n" (by decide)
    (by norm_num [dbEx, nacl])).1 nacl rfl (by norm_num [nacl])

/-- C6 counterexample: invoked with quantity_used = 0 (not strictly
positive), the streamlit handler does not fail with a validation error:
the guard only rejects values above the available quantity, so the
deduction runs and a ledger entry with quantity_used = 0 is appended. -/
theorem c6_counterexample :
    (record_usage dbEx 1 "carol" 0 "t2" "").2 = true
    ∧ (record_usage dbEx 1 "carol" 0 "t2" "").1.usage_logs
      = [⟨1, "carol", 0, "t2", ""⟩] := by
  have h : ¬((0 : ℚ) > nacl.quantity) := by norm_num [nacl]
  have hrw : record_usage dbEx 1 "carol" 0 "t2" ""
      = ({ reagents := sqlDeductQuantity 1 0 dbEx.reagents,
           usage_logs := dbEx.usage_logs ++ [⟨1, "carol", 0, "t2", ""⟩] }, true) := by
    unfold record_usage
    have hf : findReagent dbEx.reagents 1 = some nacl := rfl
    simp only [hf]
    rw [if_neg h]
  rw [hrw]
  exact ⟨rfl, rfl⟩

/-- C6 (amended): the quantity widget of the usage form clamps the
submitted value to the interval [0.01, available], so every usage that
can be recorded through the form carries a strictly positive
quantity_used; the handler itself has no positivity check (see the
counterexample). -/
theorem c6_widget_positive (db : DB) (rid : Nat) (user : String)
    (ts notes : String) (x : ℚ) (row : Reagent)
    (hfind : findReagent db.reagents rid = some row)
    (hmin : (1 / 100 : ℚ) ≤ row.quantity) :
    0 < number_input_value (1 / 100) row.quantity x
    ∧ ∀ e ∈ (record_usage db rid user (number_input_value (1 / 100) row.quantity x)
        ts notes).1.usage_logs,
        e ∈ db.usage_logs ∨ 0 < e.quantity_used := by
  have hq1 : (1 / 100 : ℚ) ≤ number_input_value (1 / 100) row.quantity x :=
    le_max_left _ _
  have hq0 : 0 < number_input_value (1 / 100) row.quantity x :=
    lt_of_lt_of_le (by norm_num) hq1
  have hqle : number_input_value (1 / 100) row.quantity x ≤ row.quantity :=
    max_le hmin (min_le_left _ _)
  refine ⟨hq0, ?_⟩
  intro e he
  have hrw : record_usage db rid user (number_input_value (1 / 100) row.quantity x)
        ts notes
      = ({ reagents := sqlDeductQuantity rid
             (number_input_value (1 / 100) row.quantity x) db.reagents,
           usage_logs := db.usage_logs
             ++ [⟨rid, user, number_input_value (1 / 100) row.quantity x,
                  ts, notes⟩] }, true) := by
    unfold record_usage
    simp only [hfind]
    rw [if_neg (not_lt.mpr hqle)]
  rw [hrw] at he
  rcases List.mem_append.mp he with h | h
  · exact Or.inl h
  · have he2 := List.mem_singleton.mp h
    subst he2
    exact Or.inr hq0

/-- Witness for C6 (amended): on the concrete database the clamped
widget value is strictly positive even when the user enters 0. -/
theorem c6_witness :
    0 < number_input_value (1 / 100) nacl.quantity 0 :=
  (c6_widget_positive dbEx 1 "dan" "t3" "" 0 nacl rfl (by norm_num [nacl])).1

end LabInventory
